import Mathlib

/-!
Shallow embedding of the retrieval pipeline in `ai/rag.py` of the schemegpt
repository, together with proofs of the specified properties.

Strings are modelled as Lean `String` (a wrapper around `List Char`); Python
float arithmetic in the scoring functions is modelled over `ℚ`; Python `dict`
metadata records are modelled by the `Metadata` structure with optional fields
(mirroring `dict.get` with a default).
-/

namespace SchemeGPT

/-- Python `str.lower()` restricted to ASCII, as used on ASCII questions and
source names in `rag.py`. -/
def pyLower (s : String) : String :=
  ⟨s.data.map Char.toLower⟩

/-- Helper for substring search: does `pat` occur at the very start of `l`? -/
def matchesAt : List Char → List Char → Bool
  | [], _ => true
  | _ :: _, [] => false
  | c :: cs, d :: ds => c == d && matchesAt cs ds

/-- Does `needle` occur contiguously somewhere inside `hay`?  Models the
Python substring operator `needle in hay`. -/
def occursIn (needle : List Char) : List Char → Bool
  | [] => needle.isEmpty
  | d :: ds => matchesAt needle (d :: ds) || occursIn needle ds

/-- Python `needle in hay` on strings. -/
def strContains (hay needle : String) : Bool :=
  occursIn needle.data hay.data

/-- Fuel-driven worker for `replaceAll`; the fuel is the length of the text,
which suffices because each step consumes at least one character. -/
def replaceAllFuel (pat repl : List Char) : Nat → List Char → List Char
  | _, [] => []
  | 0, rest => rest
  | fuel + 1, c :: cs =>
    if matchesAt pat (c :: cs) then
      repl ++ replaceAllFuel pat repl fuel (cs.drop (pat.length - 1))
    else
      c :: replaceAllFuel pat repl fuel cs

/-- Python `str.replace(pat, repl)`: replace every non-overlapping occurrence
of `pat`, scanning left to right. -/
def replaceAll (pat repl src : List Char) : List Char :=
  replaceAllFuel pat repl src.length src

/-- Python's default `str.strip()` whitespace set (ASCII part). -/
def isPySpace (c : Char) : Bool :=
  c == ' ' || c == '\t' || c == '\n' || c == '\r' || c == Char.ofNat 11 || c == Char.ofNat 12

/-- Python `str.strip()`: drop leading and trailing whitespace. -/
def pyStrip (s : String) : String :=
  ⟨((s.data.dropWhile isPySpace).reverse.dropWhile isPySpace).reverse⟩

/-- The `SCHEME_HINTS` table of `rag.py` (a Python `dict`, iterated in
insertion order, hence modelled as an ordered association list). -/
def SCHEME_HINTS : List (String × List String) :=
  [("pmjdy",
     ["pmjdy", "jan dhan", "pradhan mantri jan dhan", "pradhan mantri jan dhan yojana"]),
   ("nsp",
     ["nsp", "scholarship", "national scholarship", "national scholarship portal"]),
   ("ayushman",
     ["ayushman", "pmjay", "pm-jay", "pradhan mantri jan arogya", "ayushman bharat"]),
   ("pmay-g",
     ["pmay-g", "pmay g", "rural housing", "gramin awas", "pradhan mantri awas yojana gramin"]),
   ("pmay-u",
     ["pmay-u", "pmay u", "urban housing", "pradhan mantri awas yojana urban"]),
   ("mudra",
     ["mudra", "mudra loan", "pradhan mantri mudra yojana", "pmmy"])]

/-- Does the lower-cased question `ql` contain any keyword of the scheme
entry `p`?  This is the inner loop of `detect_scheme`. -/
def schemeMatch (ql : String) (p : String × List String) : Bool :=
  p.2.any fun kw => strContains ql kw

/-- `detect_scheme` of `rag.py`: lower-case the question and return the key
of the first `SCHEME_HINTS` entry one of whose keywords occurs in it. -/
def detect_scheme (question : String) : Option String :=
  (SCHEME_HINTS.find? (schemeMatch (pyLower question))).map Prod.fst

/-- `_normalize_source` of `rag.py`: lower-case, delete every `".pdf"`,
then turn underscores and spaces into hyphens. -/
def normalize_source (src : String) : String :=
  ⟨replaceAll [' '] ['-']
    (replaceAll ['_'] ['-']
      (replaceAll ".pdf".data [] (pyLower src).data))⟩

/-- A retrieved chunk's metadata record (a Python `dict` in `rag.py`):
`source` and `chunk_index` may each be absent. -/
structure Metadata where
  source : Option String
  chunk_index : Option Nat
deriving DecidableEq

/-- The keep-test of `filter_by_scheme`: the normalized source of the
metadata record contains the scheme key as a substring
(`meta.get("source", "")` defaults to the empty string). -/
def keepsScheme (s : String) (m : Metadata) : Bool :=
  strContains (normalize_source (m.source.getD "")) s

/-- Python `zip` of the three parallel sequences (truncates to the shortest). -/
def zip3 : List String → List Metadata → List ℚ → List (String × Metadata × ℚ)
  | d :: ds, m :: ms, x :: xs => (d, m, x) :: zip3 ds ms xs
  | _, _, _ => []

/-- `filter_by_scheme` of `rag.py`.  `if not scheme_key` in Python is true
both for `None` and for the empty string.  The single Python loop that
appends matching rows to three accumulators is rendered as a filter of the
zipped rows followed by the three projections. -/
def filter_by_scheme (docs : List String) (metas : List Metadata) (dists : List ℚ)
    (scheme_key : Option String) : List String × List Metadata × List ℚ :=
  match scheme_key with
  | none => (docs, metas, dists)
  | some s =>
    if s = "" then (docs, metas, dists)
    else if ((zip3 docs metas dists).filter fun t => keepsScheme s t.2.1).isEmpty then
      (docs, metas, dists)
    else
      (((zip3 docs metas dists).filter fun t => keepsScheme s t.2.1).map fun t => t.1,
       ((zip3 docs metas dists).filter fun t => keepsScheme s t.2.1).map fun t => t.2.1,
       ((zip3 docs metas dists).filter fun t => keepsScheme s t.2.1).map fun t => t.2.2)

/-- `distance_to_similarity` of `rag.py`. -/
def distance_to_similarity (d : ℚ) : ℚ :=
  1 / (1 + d)

/-- The top-3 similarities of `compute_confidence`:
`sorted(sims, reverse=True)[:3]`. -/
def topSims (distances : List ℚ) : List ℚ :=
  (List.insertionSort (· ≥ ·) (distances.map distance_to_similarity)).take 3

/-- `compute_confidence` of `rag.py`: 0 on the empty list, else the clamped
average of the top-3 similarities. -/
def compute_confidence (distances : List ℚ) : ℚ :=
  if distances = [] then 0
  else max 0 (min 1 ((topSims distances).sum / ((topSims distances).length : ℚ)))

/-- Rendering of `meta.get("chunk_index", "?")` inside the f-string of
`build_context`. -/
def chunkIndexText (m : Metadata) : String :=
  match m.chunk_index with
  | none => "?"
  | some i => toString i

/-- One block of `build_context`:
`f"Source: {source} (chunk {idx})\n{snippet}\n"` with
`source = meta.get("source", "unknown")` and `snippet = doc.strip()`. -/
def buildBlock (doc : String) (m : Metadata) : String :=
  "Source: " ++ m.source.getD "unknown" ++ " (chunk " ++ chunkIndexText m ++ ")\n"
    ++ pyStrip doc ++ "\n"

/-- Python `"\n---\n".join(parts)`. -/
def joinSep : List String → String
  | [] => ""
  | [p] => p
  | p :: q :: rest => p ++ "\n---\n" ++ joinSep (q :: rest)

/-- `build_context` of `rag.py`. -/
def build_context (docs : List String) (metas : List Metadata) : String :=
  joinSep ((docs.zip metas).map fun p => buildBlock p.1 p.2)

/-- The per-scheme enrichment suffixes appended by `retrieve_chunks`
(adjacent f-string literals concatenated). -/
def ENRICH_PHRASES : List (String × String) :=
  [("pmjdy",
     " PMJDY Pradhan Mantri Jan Dhan Yojana bank account life cover eligibility rules"),
   ("nsp",
     " NSP National Scholarship Portal scholarship eligibility income criteria student benefits"),
   ("ayushman",
     " Ayushman Bharat PMJAY Pradhan Mantri Jan Arogya Yojana health insurance eligibility coverage"),
   ("pmay-g",
     " PMAY-G Pradhan Mantri Awas Yojana Gramin rural housing eligibility SECC 2011 criteria"),
   ("pmay-u",
     " PMAY-U Pradhan Mantri Awas Yojana Urban urban housing subsidy eligibility"),
   ("mudra",
     " MUDRA loan Pradhan Mantri Mudra Yojana PMMY loan eligibility shishu kishore tarun")]

/-- The query-enrichment step of `retrieve_chunks` in `rag.py` (the pure
computation of `enhanced_query` before the embedding call): the detected
scheme selects a fixed suffix, and with no detected scheme the query is
unchanged. -/
def enhanced_query (query : String) : String :=
  if detect_scheme query = some "pmjdy" then
    query ++ " PMJDY Pradhan Mantri Jan Dhan Yojana bank account life cover eligibility rules"
  else if detect_scheme query = some "nsp" then
    query ++ " NSP National Scholarship Portal scholarship eligibility income criteria student benefits"
  else if detect_scheme query = some "ayushman" then
    query ++ " Ayushman Bharat PMJAY Pradhan Mantri Jan Arogya Yojana health insurance eligibility coverage"
  else if detect_scheme query = some "pmay-g" then
    query ++ " PMAY-G Pradhan Mantri Awas Yojana Gramin rural housing eligibility SECC 2011 criteria"
  else if detect_scheme query = some "pmay-u" then
    query ++ " PMAY-U Pradhan Mantri Awas Yojana Urban urban housing subsidy eligibility"
  else if detect_scheme query = some "mudra" then
    query ++ " MUDRA loan Pradhan Mantri Mudra Yojana PMMY loan eligibility shishu kishore tarun"
  else
    query

/-! ### Helper lemmas -/

/-- Occurrence of `pat` at the start of a list, as an append decomposition. -/
theorem matchesAt_iff (n : List Char) :
    ∀ h : List Char, matchesAt n h = true ↔ ∃ t, h = n ++ t := by
  induction n with
  | nil =>
    intro h
    simp [matchesAt]
  | cons c cs ih =>
    intro h
    cases h with
    | nil =>
      simp [matchesAt]
    | cons d ds =>
      simp only [matchesAt, Bool.and_eq_true, beq_iff_eq, ih ds]
      constructor
      · rintro ⟨hcd, t, ht⟩
        exact ⟨t, by rw [ht, hcd]; rfl⟩
      · rintro ⟨t, ht⟩
        injection ht with h1 h2
        exact ⟨h1.symm, t, h2⟩

/-- Substring occurrence as an append decomposition. -/
theorem occursIn_iff (n : List Char) :
    ∀ h : List Char, occursIn n h = true ↔ ∃ s t, h = s ++ n ++ t := by
  intro h
  induction h with
  | nil =>
    simp only [occursIn, List.isEmpty_iff]
    constructor
    · intro hn
      exact ⟨[], [], by simp [hn]⟩
    · rintro ⟨s, t, hst⟩
      rcases List.append_eq_nil.mp hst.symm with ⟨hsn, ht⟩
      rcases List.append_eq_nil.mp hsn with ⟨_, hn⟩
      exact hn
  | cons d ds ih =>
    simp only [occursIn, Bool.or_eq_true, matchesAt_iff, ih]
    constructor
    · rintro (⟨t, ht⟩ | ⟨s, t, hst⟩)
      · exact ⟨[], t, by simpa using ht⟩
      · exact ⟨d :: s, t, by rw [hst]; rfl⟩
    · rintro ⟨s, t, hst⟩
      cases s with
      | nil =>
        exact Or.inl ⟨t, by simpa using hst⟩
      | cons x xs =>
        injection hst with h1 h2
        exact Or.inr ⟨xs, t, h2⟩

/-- Substring containment is transitive. -/
theorem strContains_trans {inner mid outer : String}
    (h1 : strContains mid inner = true) (h2 : strContains outer mid = true) :
    strContains outer inner = true := by
  unfold strContains at *
  rw [occursIn_iff] at *
  obtain ⟨s1, t1, e1⟩ := h1
  obtain ⟨s2, t2, e2⟩ := h2
  exact ⟨s2 ++ s1, t1 ++ t2, by rw [e2, e1]; simp⟩

/-- `List.find?` returns `some a` exactly when the list splits as a block of
non-matching elements, then `a` (which matches), then anything. -/
theorem find?_eq_some_split {α : Type} (p : α → Bool) :
    ∀ (l : List α) (a : α), l.find? p = some a ↔
      ∃ l1 l2, l = l1 ++ a :: l2 ∧ p a = true ∧ ∀ x ∈ l1, p x = false := by
  intro l a
  induction l with
  | nil =>
    simp [List.find?]
  | cons b bs ih =>
    by_cases hb : p b
    · rw [List.find?_cons_of_pos _ hb]
      constructor
      · intro h
        injection h with h
        subst h
        exact ⟨[], bs, rfl, hb, by simp⟩
      · rintro ⟨l1, l2, heq, hpa, hall⟩
        cases l1 with
        | nil =>
          simp only [List.nil_append, List.cons.injEq] at heq
          rw [heq.1]
        | cons y ys =>
          injection heq with h1 _
          subst h1
          exact absurd hb (by simp [hall b (by simp)])
    · rw [List.find?_cons_of_neg _ (by simpa using hb), ih]
      constructor
      · rintro ⟨l1, l2, heq, hpa, hall⟩
        refine ⟨b :: l1, l2, by rw [heq]; rfl, hpa, ?_⟩
        intro x hx
        rcases List.mem_cons.mp hx with hx | hx
        · subst hx
          simpa using hb
        · exact hall x hx
      · rintro ⟨l1, l2, heq, hpa, hall⟩
        cases l1 with
        | nil =>
          simp only [List.nil_append, List.cons.injEq] at heq
          exact absurd (heq.1 ▸ hpa) (by simpa using hb)
        | cons y ys =>
          injection heq with h1 h2
          subst h1
          exact ⟨ys, l2, h2, hpa, fun x hx => hall x (List.mem_cons_of_mem _ hx)⟩

/-- `detect_scheme` returns `none` exactly when no keyword of any scheme
occurs in the lower-cased question. -/
theorem detect_scheme_eq_none_iff (q : String) :
    detect_scheme q = none ↔
      ∀ p ∈ SCHEME_HINTS, ∀ kw ∈ p.2, ¬ strContains (pyLower q) kw = true := by
  simp [detect_scheme, List.find?_eq_none, schemeMatch, List.any_eq_true]

/-- `detect_scheme` returns `some k` exactly when the table splits at an
entry with key `k`, one of whose keywords occurs in the lower-cased question,
while no keyword of any earlier entry occurs. -/
theorem detect_scheme_eq_some_iff (q k : String) :
    detect_scheme q = some k ↔
      ∃ l1 kws l2, SCHEME_HINTS = l1 ++ (k, kws) :: l2 ∧
        (∃ kw ∈ kws, strContains (pyLower q) kw = true) ∧
        ∀ p ∈ l1, ∀ kw ∈ p.2, ¬ strContains (pyLower q) kw = true := by
  constructor
  · intro h
    obtain ⟨pair, hfind, hfst⟩ := Option.map_eq_some'.mp h
    obtain ⟨k', kws⟩ := pair
    obtain rfl : k' = k := hfst
    obtain ⟨l1, l2, heq, hp, hall⟩ := (find?_eq_some_split _ _ _).mp hfind
    refine ⟨l1, kws, l2, heq, ?_, ?_⟩
    · simpa [schemeMatch, List.any_eq_true] using hp
    · intro p hp' kw hkw
      have hfalse := hall p hp'
      simp only [schemeMatch, List.any_eq_false] at hfalse
      exact hfalse kw hkw
  · rintro ⟨l1, kws, l2, heq, hkw, hblock⟩
    have hfind : SCHEME_HINTS.find? (schemeMatch (pyLower q)) = some (k, kws) := by
      refine (find?_eq_some_split _ _ _).mpr ⟨l1, l2, heq, ?_, ?_⟩
      · simpa [schemeMatch, List.any_eq_true] using hkw
      · intro x hx
        simp only [schemeMatch, List.any_eq_false]
        exact fun kw hkw' => hblock x hx kw hkw'
    simp [detect_scheme, hfind]

/-! ### Claim theorems -/

/-- Claim C4: `distance_to_similarity d` equals `1 / (1 + d)`; it is
monotonically decreasing on its domain (`d1 < d2` with `0 ≤ d1` gives a
strictly smaller similarity for `d2`); `distance_to_similarity 0 = 1`; and
for every `d ≥ 0` the result lies in `(0, 1]`. -/
theorem distance_to_similarity_spec :
    (∀ d : ℚ, distance_to_similarity d = 1 / (1 + d)) ∧
    distance_to_similarity 0 = 1 ∧
    (∀ d1 d2 : ℚ, 0 ≤ d1 → d1 < d2 →
      distance_to_similarity d2 < distance_to_similarity d1) ∧
    (∀ d : ℚ, 0 ≤ d →
      0 < distance_to_similarity d ∧ distance_to_similarity d ≤ 1) := by
  refine ⟨fun d => rfl, by norm_num [distance_to_similarity], ?_, ?_⟩
  · intro d1 d2 h0 h12
    unfold distance_to_similarity
    have h1 : (0:ℚ) < 1 + d1 := by linarith
    have h2 : (0:ℚ) < 1 + d2 := by linarith
    rw [div_lt_div_iff₀ h2 h1]
    linarith
  · intro d h0
    unfold distance_to_similarity
    have h1 : (0:ℚ) < 1 + d := by linarith
    exact ⟨by positivity, by rw [div_le_one h1]; linarith⟩

/-- Claim C4 witness: the theorem applied at the concrete distances 1 and 2
and at the concrete distance 5. -/
theorem distance_to_similarity_spec_witness :
    distance_to_similarity 2 < distance_to_similarity 1 ∧
    0 < distance_to_similarity 5 ∧ distance_to_similarity 5 ≤ 1 :=
  ⟨distance_to_similarity_spec.2.2.1 1 2 (by norm_num) (by norm_num),
   distance_to_similarity_spec.2.2.2 5 (by norm_num)⟩

/-- Claim C3: `compute_confidence [] = 0`; every output lies in `[0, 1]`; on
a non-empty list the result is the clamped average of the top-3
similarities, where the sorted similarity list is a permutation of the
mapped similarities, is sorted in descending order, and the top slice has
`min 3 n` elements; and on the distances
`[0.1, 0.3, 0.5, 0.9, 1.2]` the top-3 similarities are
`[10/11, 10/13, 2/3]` (≈ `[0.909, 0.769, 0.667]`) and the confidence is
`1006/1287` ≈ `0.782`. -/
theorem compute_confidence_spec :
    compute_confidence [] = 0 ∧
    (∀ l : List ℚ, 0 ≤ compute_confidence l ∧ compute_confidence l ≤ 1) ∧
    (∀ l : List ℚ, l ≠ [] →
      compute_confidence l =
        max 0 (min 1 ((topSims l).sum / ((topSims l).length : ℚ)))) ∧
    (∀ l : List ℚ,
      (List.insertionSort (· ≥ ·) (l.map distance_to_similarity)).Perm
        (l.map distance_to_similarity) ∧
      List.Sorted (· ≥ ·) (List.insertionSort (· ≥ ·) (l.map distance_to_similarity)) ∧
      (topSims l).length = min 3 l.length) ∧
    topSims [1/10, 3/10, 1/2, 9/10, 6/5] = [10/11, 10/13, 2/3] ∧
    compute_confidence [1/10, 3/10, 1/2, 9/10, 6/5] = 1006/1287 ∧
    |compute_confidence [1/10, 3/10, 1/2, 9/10, 6/5] - 782/1000| < 1/1000 := by
  have htop : topSims [1/10, 3/10, 1/2, 9/10, 6/5] = [10/11, 10/13, 2/3] := by
    norm_num [topSims, distance_to_similarity, List.insertionSort,
      List.orderedInsert, List.take]
  have hval : compute_confidence [1/10, 3/10, 1/2, 9/10, 6/5] = 1006/1287 := by
    rw [compute_confidence, if_neg (by simp), htop]
    show max 0 (min 1 ((10/11 + (10/13 + (2/3 + 0))) / ((3:Nat) : ℚ))) = 1006/1287
    norm_num
  refine ⟨rfl, ?_, ?_, ?_, htop, hval, ?_⟩
  · intro l
    rcases eq_or_ne l [] with h | h
    · simp [h, compute_confidence]
    · rw [compute_confidence, if_neg h]
      exact ⟨le_max_left 0 _, max_le (by norm_num) (min_le_left 1 _)⟩
  · intro l h
    rw [compute_confidence, if_neg h]
  · intro l
    refine ⟨List.perm_insertionSort _ _, List.sorted_insertionSort _ _, ?_⟩
    rw [topSims, List.length_take, (List.perm_insertionSort _ _).length_eq,
      List.length_map]
  · rw [hval, abs_sub_lt_iff]
    constructor <;> norm_num

/-- Claim C3 witness: the non-empty characterization applied at the
concrete one-element distance list `[1]`. -/
theorem compute_confidence_spec_witness :
    compute_confidence [(1:ℚ)] =
      max 0 (min 1 ((topSims [(1:ℚ)]).sum / ((topSims [(1:ℚ)]).length : ℚ))) :=
  compute_confidence_spec.2.2.1 [(1:ℚ)] (by simp)

/-- Claim C1: `filter_by_scheme` is fail-open: for a non-empty input
document sequence the returned document sequence is never empty; when the
scheme filter would eliminate every row the original triple is returned
unchanged; and in the concrete scenario where every source is
`"mudra_faq.pdf"` (whose normalization contains `"mudra"`, not `"pmjdy"`)
but the scheme is `"pmjdy"`, the filtered set is empty and the original
triple comes back unchanged. -/
theorem filter_by_scheme_fail_open :
    (∀ (docs : List String) (metas : List Metadata) (dists : List ℚ) (sk : Option String),
      docs ≠ [] → (filter_by_scheme docs metas dists sk).1 ≠ []) ∧
    (∀ (docs : List String) (metas : List Metadata) (dists : List ℚ) (s : String),
      s ≠ "" →
      ((zip3 docs metas dists).filter fun t => keepsScheme s t.2.1) = [] →
      filter_by_scheme docs metas dists (some s) = (docs, metas, dists)) ∧
    (strContains (normalize_source "mudra_faq.pdf") "mudra" = true ∧
     strContains (normalize_source "mudra_faq.pdf") "pmjdy" = false ∧
     filter_by_scheme ["d0", "d1"]
       [⟨some "mudra_faq.pdf", some 0⟩, ⟨some "mudra_faq.pdf", some 1⟩]
       [1/2, 3/4] (some "pmjdy") =
       (["d0", "d1"],
        [⟨some "mudra_faq.pdf", some 0⟩, ⟨some "mudra_faq.pdf", some 1⟩],
        [1/2, 3/4])) := by
  refine ⟨?_, ?_, by decide, by decide, rfl⟩
  · intro docs metas dists sk hne
    cases sk with
    | none => exact hne
    | some s =>
      simp only [filter_by_scheme]
      by_cases hs : s = ""
      · rw [if_pos hs]
        exact hne
      · rw [if_neg hs]
        by_cases hk : ((zip3 docs metas dists).filter fun t => keepsScheme s t.2.1).isEmpty = true
        · rw [if_pos hk]
          exact hne
        · rw [if_neg hk]
          intro hmap
          exact hk (by simp [List.map_eq_nil_iff.mp hmap])
  · intro docs metas dists s hs hk
    simp only [filter_by_scheme]
    rw [if_neg hs, if_pos (by simp [hk])]

/-- Claim C1 witness: the fail-open invariant applied at a concrete
non-empty input on which the filter eliminates every row. -/
theorem filter_by_scheme_fail_open_witness :
    (filter_by_scheme ["doc0"] [⟨some "mudra_faq.pdf", some 0⟩] [0] (some "pmjdy")).1 ≠ [] :=
  filter_by_scheme_fail_open.1 ["doc0"] [⟨some "mudra_faq.pdf", some 0⟩] [0]
    (some "pmjdy") (by decide)

/-- Claim C2: `filter_by_scheme` preserves index alignment — if the three
input sequences have equal length then the three returned sequences have
equal length, for every `scheme_key` including `none`. -/
theorem filter_by_scheme_alignment
    (docs : List String) (metas : List Metadata) (dists : List ℚ) (sk : Option String)
    (h1 : docs.length = metas.length) (h2 : metas.length = dists.length) :
    (filter_by_scheme docs metas dists sk).1.length =
      (filter_by_scheme docs metas dists sk).2.1.length ∧
    (filter_by_scheme docs metas dists sk).2.1.length =
      (filter_by_scheme docs metas dists sk).2.2.length := by
  cases sk with
  | none => exact ⟨h1, h2⟩
  | some s =>
    simp only [filter_by_scheme]
    by_cases hs : s = ""
    · rw [if_pos hs]
      exact ⟨h1, h2⟩
    · rw [if_neg hs]
      by_cases hk : ((zip3 docs metas dists).filter fun t => keepsScheme s t.2.1).isEmpty = true
      · rw [if_pos hk]
        exact ⟨h1, h2⟩
      · rw [if_neg hk]
        simp [List.length_map]

/-- Claim C2 witness: the alignment invariant applied at a concrete aligned
triple. -/
theorem filter_by_scheme_alignment_witness :
    (filter_by_scheme ["a"] [⟨some "x", none⟩] [0] (some "mudra")).1.length =
      (filter_by_scheme ["a"] [⟨some "x", none⟩] [0] (some "mudra")).2.1.length ∧
    (filter_by_scheme ["a"] [⟨some "x", none⟩] [0] (some "mudra")).2.1.length =
      (filter_by_scheme ["a"] [⟨some "x", none⟩] [0] (some "mudra")).2.2.length :=
  filter_by_scheme_alignment ["a"] [⟨some "x", none⟩] [0] (some "mudra") rfl rfl

/-- Claim C7 counterexample: with scheme `"pmjdy"` and a single row whose
normalized source (`"mudra-faq"`) does not contain `"pmjdy"`, the claim
says exactly the matching indices are kept, i.e. the result should be the
empty triple; the code instead returns the original row (fail-open). -/
theorem filter_by_scheme_not_exact_counterexample :
    keepsScheme "pmjdy" ⟨some "mudra_faq.pdf", some 0⟩ = false ∧
    ((zip3 ["doc0"] [⟨some "mudra_faq.pdf", some 0⟩] [0]).filter
      fun t => keepsScheme "pmjdy" t.2.1) = [] ∧
    filter_by_scheme ["doc0"] [⟨some "mudra_faq.pdf", some 0⟩] [0] (some "pmjdy") =
      (["doc0"], [⟨some "mudra_faq.pdf", some 0⟩], [0]) ∧
    (["doc0"] : List String) ≠ [] :=
  ⟨by decide, by decide, rfl, by decide⟩

/-- Claim C7 (amended): `filter_by_scheme` with `scheme_key = none` returns
the inputs unchanged, and with a detected non-empty scheme key, provided at
least one row's normalized source contains the key, it keeps exactly the
rows whose normalized metadata source contains the key as a substring, in
their original relative order (a filter of the zipped rows). -/
theorem filter_by_scheme_keeps_matching :
    (∀ (docs : List String) (metas : List Metadata) (dists : List ℚ),
      filter_by_scheme docs metas dists none = (docs, metas, dists)) ∧
    (∀ (docs : List String) (metas : List Metadata) (dists : List ℚ) (s : String),
      s ≠ "" →
      ((zip3 docs metas dists).filter fun t => keepsScheme s t.2.1) ≠ [] →
      filter_by_scheme docs metas dists (some s) =
        (((zip3 docs metas dists).filter fun t => keepsScheme s t.2.1).map fun t => t.1,
         ((zip3 docs metas dists).filter fun t => keepsScheme s t.2.1).map fun t => t.2.1,
         ((zip3 docs metas dists).filter fun t => keepsScheme s t.2.1).map fun t => t.2.2)) := by
  refine ⟨fun _ _ _ => rfl, ?_⟩
  intro docs metas dists s hs hk
  simp only [filter_by_scheme]
  rw [if_neg hs, if_neg (by simpa [List.isEmpty_iff] using hk)]

/-- Claim C7 witness: the amended theorem applied at a concrete row whose
normalized source contains the scheme key. -/
theorem filter_by_scheme_keeps_matching_witness :
    filter_by_scheme ["doc"] [⟨some "mudra_faq.pdf", some 0⟩] [0] (some "mudra") =
      (["doc"], [⟨some "mudra_faq.pdf", some 0⟩], [0]) := by
  rw [filter_by_scheme_keeps_matching.2 ["doc"] [⟨some "mudra_faq.pdf", some 0⟩] [0]
    "mudra" (by decide) (by decide)]
  rfl

/-- Claim C5 counterexample: the question `"is jan dhan better than mudra"`
contains the keyword `"mudra"` configured for the scheme `"mudra"`, yet
`detect_scheme` returns `"pmjdy"` (the earlier table entry whose keyword
`"jan dhan"` also occurs), not `"mudra"` — so the claim, universally
quantified over schemes, fails at this input. -/
theorem detect_scheme_counterexample :
    ("mudra", ["mudra", "mudra loan", "pradhan mantri mudra yojana", "pmmy"]) ∈ SCHEME_HINTS ∧
    "mudra" ∈ ["mudra", "mudra loan", "pradhan mantri mudra yojana", "pmmy"] ∧
    strContains (pyLower "is jan dhan better than mudra") "mudra" = true ∧
    detect_scheme "is jan dhan better than mudra" = some "pmjdy" ∧
    detect_scheme "is jan dhan better than mudra" ≠ some "mudra" := by
  decide

/-- Claim C5 (amended): for every question and every scheme in the table,
if the question contains (case-insensitively) a keyword of that scheme and
contains no keyword of any scheme earlier in table order, then
`detect_scheme` returns that scheme's key. -/
theorem detect_scheme_keyword_first_match (q k : String) (kws : List String)
    (l1 l2 : List (String × List String))
    (htab : SCHEME_HINTS = l1 ++ (k, kws) :: l2)
    (hkw : ∃ kw ∈ kws, strContains (pyLower q) kw = true)
    (hblock : ∀ p ∈ l1, ∀ kw ∈ p.2, ¬ strContains (pyLower q) kw = true) :
    detect_scheme q = some k :=
  (detect_scheme_eq_some_iff q k).mpr ⟨l1, kws, l2, htab, hkw, hblock⟩

/-- Claim C5 witness: the amended theorem applied at a concrete question
containing a `"mudra"` keyword and no keyword of any earlier scheme. -/
theorem detect_scheme_keyword_first_match_witness :
    detect_scheme "apply for mudra loan" = some "mudra" :=
  detect_scheme_keyword_first_match "apply for mudra loan" "mudra"
    ["mudra", "mudra loan", "pradhan mantri mudra yojana", "pmmy"]
    [("pmjdy",
       ["pmjdy", "jan dhan", "pradhan mantri jan dhan", "pradhan mantri jan dhan yojana"]),
     ("nsp",
       ["nsp", "scholarship", "national scholarship", "national scholarship portal"]),
     ("ayushman",
       ["ayushman", "pmjay", "pm-jay", "pradhan mantri jan arogya", "ayushman bharat"]),
     ("pmay-g",
       ["pmay-g", "pmay g", "rural housing", "gramin awas", "pradhan mantri awas yojana gramin"]),
     ("pmay-u",
       ["pmay-u", "pmay u", "urban housing", "pradhan mantri awas yojana urban"])]
    [] rfl ⟨"mudra", by decide, by decide⟩ (by decide)

/-- Claim C6: the scheme table lists the keys in the order pmjdy, nsp,
ayushman, pmay-g, pmay-u, mudra; `detect_scheme` returns `none` exactly
when no keyword of any scheme occurs (case-insensitively, as a substring)
in the question; and it returns `some k` exactly when the table splits at
an entry with key `k` one of whose keywords occurs in the lower-cased
question while no keyword of any earlier entry occurs — i.e. the first
matching entry in table order wins. -/
theorem detect_scheme_first_match_characterization (q : String) :
    SCHEME_HINTS.map Prod.fst = ["pmjdy", "nsp", "ayushman", "pmay-g", "pmay-u", "mudra"] ∧
    (detect_scheme q = none ↔
      ∀ p ∈ SCHEME_HINTS, ∀ kw ∈ p.2, ¬ strContains (pyLower q) kw = true) ∧
    (∀ k : String, detect_scheme q = some k ↔
      ∃ l1 kws l2, SCHEME_HINTS = l1 ++ (k, kws) :: l2 ∧
        (∃ kw ∈ kws, strContains (pyLower q) kw = true) ∧
        ∀ p ∈ l1, ∀ kw ∈ p.2, ¬ strContains (pyLower q) kw = true) :=
  ⟨rfl, detect_scheme_eq_none_iff q, fun k => detect_scheme_eq_some_iff q k⟩

/-- Claim C6 witness: the `none` characterization applied at a concrete
question containing no configured keyword. -/
theorem detect_scheme_first_match_characterization_witness :
    detect_scheme "the weather is nice" = none :=
  (detect_scheme_first_match_characterization "the weather is nice").2.1.mpr (by decide)

/-- Claim C10: substring keyword matching has no word boundaries — every
question whose lower-cased text contains `"transport"` and contains no
keyword of the earlier pmjdy table entry is classified as `"nsp"`, because
the keyword `"nsp"` occurs inside the word `"transport"`. -/
theorem detect_scheme_transport_gives_nsp (q : String)
    (htr : strContains (pyLower q) "transport" = true)
    (hpm : ∀ kw ∈ ["pmjdy", "jan dhan", "pradhan mantri jan dhan",
      "pradhan mantri jan dhan yojana"], strContains (pyLower q) kw = false) :
    detect_scheme q = some "nsp" := by
  apply (detect_scheme_eq_some_iff q "nsp").mpr
  refine ⟨[("pmjdy",
      ["pmjdy", "jan dhan", "pradhan mantri jan dhan", "pradhan mantri jan dhan yojana"])],
    ["nsp", "scholarship", "national scholarship", "national scholarship portal"],
    [("ayushman",
       ["ayushman", "pmjay", "pm-jay", "pradhan mantri jan arogya", "ayushman bharat"]),
     ("pmay-g",
       ["pmay-g", "pmay g", "rural housing", "gramin awas", "pradhan mantri awas yojana gramin"]),
     ("pmay-u",
       ["pmay-u", "pmay u", "urban housing", "pradhan mantri awas yojana urban"]),
     ("mudra",
       ["mudra", "mudra loan", "pradhan mantri mudra yojana", "pmmy"])],
    rfl, ?_, ?_⟩
  · exact ⟨"nsp", by decide, strContains_trans (by decide) htr⟩
  · intro p hp kw hkw
    simp only [List.mem_singleton] at hp
    subst hp
    simp [hpm kw hkw]

/-- Claim C10 witness: the theorem applied at the concrete question
`"How can I transport my goods?"`. -/
theorem detect_scheme_transport_gives_nsp_witness :
    detect_scheme "How can I transport my goods?" = some "nsp" :=
  detect_scheme_transport_gives_nsp "How can I transport my goods?"
    (by decide) (by decide)

/-- Claim C8: query enrichment is the identity when no scheme is detected;
when a scheme is detected the enriched query is the original question
followed by that scheme's fixed enrichment phrase from the per-scheme
table; and for `"What is the eligibility for PMJDY?"` the detected scheme
is `"pmjdy"` and the enriched query contains the original text verbatim
together with PMJDY-specific terms. -/
theorem enhanced_query_spec :
    (∀ q : String, detect_scheme q = none → enhanced_query q = q) ∧
    (∀ q k : String, detect_scheme q = some k →
      ∃ p : String, (k, p) ∈ ENRICH_PHRASES ∧ enhanced_query q = q ++ p) ∧
    (detect_scheme "What is the eligibility for PMJDY?" = some "pmjdy" ∧
     strContains (enhanced_query "What is the eligibility for PMJDY?")
       "What is the eligibility for PMJDY?" = true ∧
     strContains (enhanced_query "What is the eligibility for PMJDY?") "Jan Dhan" = true ∧
     strContains (enhanced_query "What is the eligibility for PMJDY?") "PMJDY" = true) := by
  refine ⟨?_, ?_, by decide, by decide, by decide, by decide⟩
  · intro q h
    simp [enhanced_query, h]
  · intro q k h
    obtain ⟨⟨k', kws⟩, hfind, hfst⟩ := Option.map_eq_some'.mp h
    obtain rfl : k' = k := hfst
    have hmem : (k', kws) ∈ SCHEME_HINTS := List.mem_of_find?_eq_some hfind
    simp only [SCHEME_HINTS, List.mem_cons, List.not_mem_nil, or_false,
      Prod.mk.injEq] at hmem
    rcases hmem with ⟨rfl, rfl⟩ | ⟨rfl, rfl⟩ | ⟨rfl, rfl⟩ | ⟨rfl, rfl⟩ | ⟨rfl, rfl⟩ | ⟨rfl, rfl⟩
    · exact ⟨" PMJDY Pradhan Mantri Jan Dhan Yojana bank account life cover eligibility rules",
        by decide, by simp [enhanced_query, h]⟩
    · exact ⟨" NSP National Scholarship Portal scholarship eligibility income criteria student benefits",
        by decide, by simp [enhanced_query, h]⟩
    · exact ⟨" Ayushman Bharat PMJAY Pradhan Mantri Jan Arogya Yojana health insurance eligibility coverage",
        by decide, by simp [enhanced_query, h]⟩
    · exact ⟨" PMAY-G Pradhan Mantri Awas Yojana Gramin rural housing eligibility SECC 2011 criteria",
        by decide, by simp [enhanced_query, h]⟩
    · exact ⟨" PMAY-U Pradhan Mantri Awas Yojana Urban urban housing subsidy eligibility",
        by decide, by simp [enhanced_query, h]⟩
    · exact ⟨" MUDRA loan Pradhan Mantri Mudra Yojana PMMY loan eligibility shishu kishore tarun",
        by decide, by simp [enhanced_query, h]⟩

/-- Claim C8 witness: the identity clause applied at a concrete question
with no detected scheme. -/
theorem enhanced_query_spec_witness :
    enhanced_query "hello there" = "hello there" :=
  enhanced_query_spec.1 "hello there" (by decide)

/-- Claim C9: `build_context` renders one block per index in the given
order — on empty input it yields the empty string, and on a cons it yields
the head block, followed (when further zipped rows remain) by the fixed
separator line and the context of the tail; for two chunks from source
`"nsp"` with chunk indices 0 and 1 the output is the two blocks joined by
the fixed separator, containing both `"Source: nsp (chunk 0)"` and
`"Source: nsp (chunk 1)"`.  Determinism holds because `build_context` is a
pure function. -/
theorem build_context_spec :
    (∀ metas : List Metadata, build_context [] metas = "") ∧
    (∀ docs : List String, build_context docs [] = "") ∧
    (∀ (d : String) (ds : List String) (m : Metadata) (ms : List Metadata),
      build_context (d :: ds) (m :: ms) =
        if ds.zip ms = [] then buildBlock d m
        else buildBlock d m ++ "\n---\n" ++ build_context ds ms) ∧
    (build_context ["text zero", "text one"] [⟨some "nsp", some 0⟩, ⟨some "nsp", some 1⟩] =
       "Source: nsp (chunk 0)\ntext zero\n\n---\nSource: nsp (chunk 1)\ntext one\n" ∧
     strContains
       (build_context ["text zero", "text one"] [⟨some "nsp", some 0⟩, ⟨some "nsp", some 1⟩])
       "Source: nsp (chunk 0)" = true ∧
     strContains
       (build_context ["text zero", "text one"] [⟨some "nsp", some 0⟩, ⟨some "nsp", some 1⟩])
       "Source: nsp (chunk 1)" = true ∧
     strContains
       (build_context ["text zero", "text one"] [⟨some "nsp", some 0⟩, ⟨some "nsp", some 1⟩])
       "\n---\n" = true) := by
  refine ⟨fun _ => rfl, ?_, ?_, by decide, by decide, by decide, by decide⟩
  · intro docs
    cases docs <;> rfl
  · intro d ds m ms
    by_cases hz : ds.zip ms = []
    · rw [if_pos hz]
      simp [build_context, List.zip_cons_cons, hz, joinSep]
    · rw [if_neg hz]
      obtain ⟨a, as, ha⟩ := List.exists_cons_of_ne_nil hz
      simp [build_context, List.zip_cons_cons, ha, joinSep]

end SchemeGPT
